import Mathlib

/-!
Verification development for the project-gantt backend.

Shallow embedding of the core subsystems described in the specification:
the RBAC layer (`backend/app/utils/rbac.py`), the task service
(`backend/app/services/task_service.py`), the insights engine
(`backend/app/services/insights_service.py`) and the invite model/service
(`backend/app/models/invite.py`, `backend/app/services/invite_service.py`).

Modelling conventions:
* Python `str` ids, roles and statuses are Lean `String`s; nullable columns
  are `Option`; SQLAlchemy queries against the database become lookups in
  explicit `List`-valued tables carried by a `DB` record.
* Python `date`/`datetime` values are day numbers / instants of type `Int`;
  `d1 - d2` on dates corresponds to `(d1 - d2).days`.
* Python float arithmetic in the insights engine is modelled exactly over
  `ℚ`; `int(x)` (truncation toward zero) is modelled by `pyInt`.
* Flask decorators become functions returning `Except ErrKind Unit`:
  `Except.ok ()` means the wrapped handler runs, `Except.error k` is the
  short-circuiting `error_response`, with the response message/status mapped to
  the specification's error-kind taxonomy (§7): 404 "not found" →
  `ResourceNotFound`, 403 "deactivated" → `AccountDeactivated`,
  403 "Insufficient permissions"/"Permission denied" →
  `InsufficientPermission`, 403 "Access denied" → `AccessDenied`,
  400 missing path parameter → `BadRequest`.
-/

deriving instance DecidableEq for Except

namespace ProjectGantt

/-! ## Data model (backend/app/models) -/

/-- `users` row (backend/app/models/user.py), fields consumed by the core:
`role` is a nullable enum column, `is_active` defaults to true. -/
structure User where
  id : String
  email : String
  role : Option String
  is_active : Bool
  department_id : Option String
  deriving Repr, DecidableEq

/-- `projects` row (backend/app/models/project.py). Dates are day numbers. -/
structure Project where
  id : String
  name : String
  status : Option String
  progress : Option Int
  start_date : Option Int
  end_date : Option Int
  owner_id : Option String
  deriving Repr, DecidableEq

/-- `tasks` row (backend/app/models/task.py). -/
structure Task where
  id : String
  name : String
  description : String
  status : Option String
  priority : Option String
  progress : Option Int
  start_date : Option Int
  end_date : Option Int
  assignee_id : Option String
  project_id : String
  deriving Repr, DecidableEq

/-- `team_members` row (backend/app/models/team_member.py). -/
structure TeamMember where
  id : String
  user_id : Option String
  name : String
  status : Option String
  deriving Repr, DecidableEq

/-- The relational store seen by the RBAC layer.  `project_members` is the
`project_members` association table as (project_id, team_member_id) pairs. -/
structure DB where
  users : List User
  projects : List Project
  tasks : List Task
  team_members : List TeamMember
  project_members : List (String × String)
  deriving Repr

/-- `UserService.get_by_id` / `User.query.get`. -/
def getUser (db : DB) (user_id : String) : Option User :=
  db.users.find? fun u => u.id == user_id

/-- `ProjectService.get_by_id` / `Project.query.get`. -/
def getProject (db : DB) (project_id : String) : Option Project :=
  db.projects.find? fun p => p.id == project_id

/-- `TaskService.get_by_id` / `Task.query.get`. -/
def getTask (db : DB) (task_id : String) : Option Task :=
  db.tasks.find? fun t => t.id == task_id

/-- `TeamMember.query.filter_by(user_id=user_id).first()`. -/
def getTeamMemberByUser (db : DB) (user_id : String) : Option TeamMember :=
  db.team_members.find? fun m => m.user_id == some user_id

/-! ## RBAC (backend/app/utils/rbac.py) -/

/-- `ROLE_HIERARCHY` dict: role string → rank (higher = more permissions). -/
def ROLE_HIERARCHY (role : String) : Option Nat :=
  if role = "viewer" then some 0
  else if role = "member" then some 1
  else if role = "manager" then some 2
  else if role = "department_admin" then some 3
  else if role = "admin" then some 4
  else none

/-- `has_role(user_role, required_role)`:
`ROLE_HIERARCHY.get(user_role, 0) >= ROLE_HIERARCHY.get(required_role, 999)`. -/
def has_role (user_role required_role : String) : Bool :=
  (ROLE_HIERARCHY user_role).getD 0 ≥ (ROLE_HIERARCHY required_role).getD 999

/-- The `Permission` enum. -/
inductive Permission where
  | VIEW_USERS | MANAGE_USERS
  | VIEW_PROJECTS | CREATE_PROJECTS | EDIT_PROJECTS | DELETE_PROJECTS
  | MANAGE_PROJECT_MEMBERS
  | VIEW_TASKS | CREATE_TASKS | EDIT_TASKS | DELETE_TASKS | ASSIGN_TASKS
  | VIEW_TEAM | MANAGE_TEAM
  | MANAGE_DEPARTMENT_MEMBERS | MANAGE_DEPARTMENT_PROJECTS
  | MANAGE_DEPARTMENTS | MANAGE_ROLES | SYSTEM_SETTINGS
  deriving Repr, DecidableEq

open Permission in
/-- `ROLE_PERMISSIONS` dict: role string → list of permissions. -/
def ROLE_PERMISSIONS (role : String) : Option (List Permission) :=
  if role = "viewer" then some
    [VIEW_USERS, VIEW_PROJECTS, VIEW_TASKS, VIEW_TEAM]
  else if role = "member" then some
    [VIEW_USERS, VIEW_PROJECTS, VIEW_TASKS, VIEW_TEAM, CREATE_TASKS, EDIT_TASKS]
  else if role = "manager" then some
    [VIEW_USERS, VIEW_PROJECTS, CREATE_PROJECTS, EDIT_PROJECTS,
     MANAGE_PROJECT_MEMBERS, VIEW_TASKS, CREATE_TASKS, EDIT_TASKS,
     DELETE_TASKS, ASSIGN_TASKS, VIEW_TEAM, MANAGE_TEAM]
  else if role = "department_admin" then some
    [VIEW_USERS, VIEW_PROJECTS, CREATE_PROJECTS, EDIT_PROJECTS,
     MANAGE_PROJECT_MEMBERS, VIEW_TASKS, CREATE_TASKS, EDIT_TASKS,
     DELETE_TASKS, ASSIGN_TASKS, VIEW_TEAM, MANAGE_TEAM,
     MANAGE_DEPARTMENT_MEMBERS, MANAGE_DEPARTMENT_PROJECTS]
  else if role = "admin" then some
    [VIEW_USERS, MANAGE_USERS, VIEW_PROJECTS, CREATE_PROJECTS, EDIT_PROJECTS,
     DELETE_PROJECTS, MANAGE_PROJECT_MEMBERS, VIEW_TASKS, CREATE_TASKS,
     EDIT_TASKS, DELETE_TASKS, ASSIGN_TASKS, VIEW_TEAM, MANAGE_TEAM,
     MANAGE_DEPARTMENTS, MANAGE_ROLES, SYSTEM_SETTINGS]
  else none

/-- `has_permission(user_role, permission)`:
`permission in ROLE_PERMISSIONS.get(user_role, [])`. -/
def has_permission (user_role : String) (permission : Permission) : Bool :=
  permission ∈ (ROLE_PERMISSIONS user_role).getD []

/-- `is_project_owner(user_id, project_id)`. -/
def is_project_owner (db : DB) (user_id project_id : String) : Bool :=
  match getProject db project_id with
  | some project => project.owner_id == some user_id
  | none => false

/-- `is_project_member(user_id, project_id)`: the user's team member row is
in `project.team_members` (the `project_members` association table). -/
def is_project_member (db : DB) (user_id project_id : String) : Bool :=
  match getProject db project_id with
  | none => false
  | some _ =>
    match getTeamMemberByUser db user_id with
    | some tm => db.project_members.contains (project_id, tm.id)
    | none => false

/-- `is_task_assignee(user_id, task_id)`. -/
def is_task_assignee (db : DB) (user_id task_id : String) : Bool :=
  match getTask db task_id with
  | none => false
  | some task =>
    match getTeamMemberByUser db user_id with
    | some tm => task.assignee_id == some tm.id
    | none => false

/-- The specification's error-kind taxonomy (§7), the codomain of the
embedded decorators; see the module docstring for the message → kind map. -/
inductive ErrKind where
  | AccountDeactivated
  | InsufficientPermission
  | AccessDenied
  | ResourceNotFound
  | BadRequest
  deriving Repr, DecidableEq

/-- `require_role(required_role)` decorator body: user lookup, active check,
then `has_role`.  `user.role or Role.MEMBER.value` becomes `getD "member"`. -/
def require_role (required_role : String) (user_id : String) (db : DB) :
    Except ErrKind Unit :=
  match getUser db user_id with
  | none => .error .ResourceNotFound
  | some user =>
    if !user.is_active then .error .AccountDeactivated
    else
      let user_role := user.role.getD "member"
      if !has_role user_role required_role then .error .InsufficientPermission
      else .ok ()

/-- `require_permission(permission)` decorator body. -/
def require_permission (permission : Permission) (user_id : String) (db : DB) :
    Except ErrKind Unit :=
  match getUser db user_id with
  | none => .error .ResourceNotFound
  | some user =>
    if !user.is_active then .error .AccountDeactivated
    else
      let user_role := user.role.getD "member"
      if !has_permission user_role permission then .error .InsufficientPermission
      else .ok ()

/-- `require_project_access(allow_owner, allow_member, allow_manager)`
decorator body.  `project_id` is `kwargs.get('project_id')` (`Option`). -/
def require_project_access (allow_owner allow_member allow_manager : Bool)
    (user_id : String) (project_id : Option String) (db : DB) :
    Except ErrKind Unit :=
  match project_id with
  | none => .error .BadRequest
  | some pid =>
    match getUser db user_id with
    | none => .error .ResourceNotFound
    | some user =>
      if !user.is_active then .error .AccountDeactivated
      else
        match getProject db pid with
        | none => .error .ResourceNotFound
        | some _ =>
          let user_role := user.role.getD "member"
          if has_role user_role "admin" then .ok ()
          else if allow_manager && has_role user_role "manager" then .ok ()
          else if allow_owner && is_project_owner db user_id pid then .ok ()
          else if allow_member && is_project_member db user_id pid then .ok ()
          else .error .AccessDenied

/-- `require_task_access(allow_assignee, allow_project_member)` decorator
body.  Note the source allows any role of at least manager rank
unconditionally and has no owner rule for tasks. -/
def require_task_access (allow_assignee allow_project_member : Bool)
    (user_id : String) (task_id : Option String) (db : DB) :
    Except ErrKind Unit :=
  match task_id with
  | none => .error .BadRequest
  | some tid =>
    match getUser db user_id with
    | none => .error .ResourceNotFound
    | some user =>
      if !user.is_active then .error .AccountDeactivated
      else
        match getTask db tid with
        | none => .error .ResourceNotFound
        | some task =>
          let user_role := user.role.getD "member"
          if has_role user_role "manager" then .ok ()
          else if allow_assignee && is_task_assignee db user_id tid then .ok ()
          else if allow_project_member && is_project_member db user_id task.project_id then .ok ()
          else .error .AccessDenied

/-! ## Input sanitization (backend/app/utils/sanitizer.py), TASK_SCHEMA part -/

/-- `html.escape(value)` from the Python standard library (quote=True):
escape `&`, `<`, `>`, `"` and the apostrophe, in that order. -/
def htmlEscape (s : String) : String :=
  (((((s.replace "&" "&amp;").replace "<" "&lt;").replace ">" "&gt;").replace
    "\"" "&quot;").replace (Char.ofNat 39).toString "&#x27;")

/-- Characters removed by the regex `[\x00-\x08\x0b\x0c\x0e-\x1f\x7f]`. -/
def isStrippedCtrl (c : Char) : Bool :=
  c.toNat ≤ 8 || c.toNat == 11 || c.toNat == 12 ||
    (14 ≤ c.toNat && c.toNat ≤ 31) || c.toNat == 127

/-- `sanitize_string(value, max_length, allow_html=False)`: strip
whitespace, drop control characters, escape HTML entities, truncate. -/
def sanitize_string (s : String) (maxLength : Option Nat) : String :=
  let s := s.trim
  let s := String.mk (s.toList.filter fun c => !isStrippedCtrl c)
  let s := htmlEscape s
  match maxLength with
  | some n => if s.length > n then String.mk (s.toList.take n) else s
  | none => s

/-- TASK_SCHEMA `status` field: enum sanitization stores the value when
allowed and `None` otherwise. -/
def sanitizeTaskStatus (s : String) : Option String :=
  if s = "todo" ∨ s = "in-progress" ∨ s = "review" ∨ s = "completed"
  then some s else none

/-- TASK_SCHEMA `priority` field: enum with values low/medium/high/critical. -/
def sanitizeTaskPriority (s : String) : Option String :=
  if s = "low" ∨ s = "medium" ∨ s = "high" ∨ s = "critical"
  then some s else none

/-- `sanitize_integer(value, min_val=0, max_val=100)` on an integer input:
clamp below to 0, then above to 100. -/
def sanitizeTaskProgress (p : Int) : Int :=
  let p := if p < 0 then 0 else p
  if p > 100 then 100 else p

/-! ## Task service (backend/app/services/task_service.py)

The service functions fetch the task by id, mutate it and commit; the
embedding maps the fetched task value to its post-commit value (the
database round trip and the `_update_project_progress` side effect on the
owning project's derived `progress` column are outside the task row). -/

/-- The incoming JSON `data` dict of `TaskService.update`: an outer `none`
means the key is absent.  `assigneeId` is doubly optional because
`data['assigneeId'] if data['assigneeId'] else None` maps falsy values
(null, empty string) to `None`. -/
structure TaskUpdateData where
  name : Option String := none
  description : Option String := none
  status : Option String := none
  priority : Option String := none
  progress : Option Int := none
  startDate : Option Int := none
  endDate : Option Int := none
  assigneeId : Option (Option String) := none
  projectId : Option String := none
  deriving Repr, DecidableEq

namespace TaskService

/-- `TaskService.update(task_id, data)` on a fetched task: field-by-field
conditional assignment, in source order.  A `status` change updates
`progress` (completed → 100, todo with progress 100 → 0) at the point of
assignment; an explicit `progress` value is applied afterwards. -/
def update (t : Task) (d : TaskUpdateData) : Task :=
  let t := match d.name with
    | some v => { t with name := sanitize_string v (some 255) }
    | none => t
  let t := match d.description with
    | some v => { t with description := sanitize_string v (some 2000) }
    | none => t
  let t := match d.status with
    | some v =>
      let st := sanitizeTaskStatus v
      let t := { t with status := st }
      if st = some "completed" then { t with progress := some 100 }
      else if st = some "todo" ∧ t.progress = some 100 then
        { t with progress := some 0 }
      else t
    | none => t
  let t := match d.priority with
    | some v => { t with priority := sanitizeTaskPriority v }
    | none => t
  let t := match d.progress with
    | some p => { t with progress := some (sanitizeTaskProgress p) }
    | none => t
  let t := match d.startDate with
    | some dte => { t with start_date := some dte }
    | none => t
  let t := match d.endDate with
    | some dte => { t with end_date := some dte }
    | none => t
  let t := match d.assigneeId with
    | some a => { t with assignee_id := a }
    | none => t
  match d.projectId with
  | some pid => { t with project_id := pid }
  | none => t

/-- `TaskService.update_status(task_id, status)` on a fetched task:
`none` is the `return None` on an invalid status value. -/
def update_status (t : Task) (status : String) : Option Task :=
  if status = "todo" ∨ status = "in-progress" ∨ status = "review" ∨
      status = "completed" then
    let t := { t with status := some status }
    if status = "completed" then some { t with progress := some 100 }
    else if status = "todo" then some { t with progress := some 0 }
    else some t
  else none

/-- `TaskService.update_progress(task_id, progress)` on a fetched task:
store `max(0, min(100, progress))`, then couple status using the RAW
input (`progress == 100` / `progress == 0`). -/
def update_progress (t : Task) (progress : Int) : Task :=
  let t := { t with progress := some (max 0 (min 100 progress)) }
  if progress = 100 then { t with status := some "completed" }
  else if progress = 0 ∧ t.status = some "completed" then
    { t with status := some "todo" }
  else t

end TaskService

/-! ## Invites (backend/app/models/invite.py, backend/app/services/invite_service.py)

`datetime` instants are modelled as `Int`; `datetime.utcnow()` is the
explicit parameter `now`. -/

/-- `invites` row, fields consumed by validity and acceptance. -/
structure Invite where
  token : String
  email : String
  role : String
  department_id : Option String
  password : Option String
  created_by : Option String
  expires_at : Int
  used_at : Option Int
  revoked_at : Option Int
  deriving Repr, DecidableEq

namespace Invite

/-- `Invite.is_expired`: `datetime.utcnow() > self.expires_at`. -/
def is_expired (inv : Invite) (now : Int) : Bool :=
  now > inv.expires_at

/-- `Invite.is_used`: `self.used_at is not None`. -/
def is_used (inv : Invite) : Bool :=
  inv.used_at.isSome

/-- `Invite.is_revoked`: `self.revoked_at is not None`. -/
def is_revoked (inv : Invite) : Bool :=
  inv.revoked_at.isSome

/-- `Invite.is_valid`: not expired, not used, not revoked. -/
def is_valid (inv : Invite) (now : Int) : Bool :=
  !inv.is_expired now && !inv.is_used && !inv.is_revoked

end Invite

/-- `werkzeug.security.generate_password_hash`, an external KDF; modelled
as a tagging function — no claim depends on its output value. -/
def generate_password_hash (password : String) : String :=
  "pbkdf2$" ++ password

/-- The user record created by a successful invite acceptance. -/
structure NewUser where
  name : String
  email : String
  password_hash : String
  role : String
  department_id : Option String
  deriving Repr, DecidableEq

namespace InviteService

/-- `InviteService.get_by_token`: `Invite.query.filter_by(token=token).first()`. -/
def get_by_token (token : String) (invites : List Invite) : Option Invite :=
  invites.find? fun inv => inv.token == token

/-- `InviteService.get_valid_by_token`: the invite, only if `is_valid`. -/
def get_valid_by_token (token : String) (invites : List Invite) (now : Int) :
    Option Invite :=
  match get_by_token token invites with
  | some invite => if invite.is_valid now then some invite else none
  | none => none

/-- `InviteService.accept(token, password)`: look up a valid invite, reject
a duplicate email, resolve the password (pre-set hash wins when the caller
sends none; a falsy — absent or empty — caller password is `none` here),
then create the user.  The `UserSettings`/`TeamMember` rows and the
`invite.use()` mark written in the same transaction are outside the
returned value. -/
def accept (token : String) (password : Option String)
    (invites : List Invite) (users : List User) (now : Int) :
    Except String NewUser :=
  match get_valid_by_token token invites now with
  | none => .error "Convite inválido, expirado ou revogado"
  | some invite =>
    if (users.find? fun u => u.email == invite.email).isSome then
      .error "Já existe uma conta com este e-mail"
    else
      let password_hash : Option String :=
        if invite.password.isSome && password.isNone then invite.password
        else match password with
          | some pw => some (generate_password_hash pw)
          | none => none
      match password_hash with
      | none => .error "Senha obrigatória"
      | some h =>
        .ok { name := ((invite.email.splitOn "@").headD invite.email),
              email := invite.email,
              password_hash := h,
              role := invite.role,
              department_id := invite.department_id }

end InviteService

/-! ## Insights engine (backend/app/services/insights_service.py)

`today` (`date.today()`) is an explicit `Int` day-number parameter; date
subtraction `(a - b).days` is integer subtraction.  Python float
arithmetic (`/`, `* 100`, `* 0.7`) is modelled exactly over `ℚ` and
`int(x)` by `pyInt`; the engine's comparisons and the numbers the claims
depend on are float-exact, so the exact-rational model agrees with the
source there. -/

/-- One generated insight record (a Python dict with these four keys). -/
structure Insight where
  type : String
  icon : String
  title : String
  description : String
  deriving Repr, DecidableEq

/-- Python `int(x)` on a float: truncation toward zero. -/
def pyInt (q : ℚ) : Int :=
  if q < 0 then -(Int.floor (-q)) else Int.floor q

/-- Python `str(x)` on a nullable int column (f-string interpolation of a
possibly-`None` value). -/
def strOptInt (x : Option Int) : String :=
  match x with
  | some n => toString n
  | none => "None"

/-- First-seen-order key list of a Python `Counter`/dict built by counting
an iterable (Python dicts preserve insertion order). -/
def dedupFirst (l : List String) : List String :=
  l.foldl (fun acc x => if x ∈ acc then acc else acc ++ [x]) []

namespace InsightsService

/-- `(today - t.end_date).days` for a task on the overdue list (where
`end_date` is non-null). -/
def daysLate (today : Int) (t : Task) : Int :=
  today - t.end_date.getD 0

/-- `max(overdue, key=lambda t: (today - t.end_date).days)`: `none` on an
empty list, otherwise the first element attaining the maximum (Python
`max` keeps the first among ties). -/
def maxByDaysLate (today : Int) : List Task → Option Task
  | [] => none
  | t :: ts =>
    some (ts.foldl
      (fun best x => if daysLate today x > daysLate today best then x else best) t)

/-- `_overdue_tasks`: one critical finding when any non-completed task has
`end_date < today`.  The `match` on `maxByDaysLate` combines the source's
`if not overdue: return []` guard with its `max(overdue, ...)` call. -/
def overdue_tasks (tasks : List Task) (today : Int) : List Insight :=
  let overdue := tasks.filter fun t =>
    match t.end_date with
    | some e => decide (e < today) && !(t.status == some "completed")
    | none => false
  match maxByDaysLate today overdue with
  | none => []
  | some most_overdue =>
    let count := overdue.length
    let high_priority := overdue.filter fun t => t.priority == some "high"
    let desc := toString count ++ " tarefa" ++ (if count > 1 then "s" else "") ++
      " com prazo vencido."
    let desc := if !high_priority.isEmpty then
        desc ++ " " ++ toString high_priority.length ++ " " ++
          (if high_priority.length > 1 then "são" else "é") ++
          " de alta prioridade."
      else desc
    let days_late := daysLate today most_overdue
    let desc := desc ++ " \"" ++ most_overdue.name ++ "\" está " ++
      toString days_late ++ " dia" ++ (if days_late > 1 then "s" else "") ++
      " atrasada."
    [{ type := "critical"
       icon := "AlertTriangle"
       title := toString count ++ " tarefa" ++ (if count > 1 then "s" else "") ++
         " atrasada" ++ (if count > 1 then "s" else "")
       description := desc }]

/-- `_overdue_projects`: one critical finding per non-completed project
past its end date (the source's early return on an empty list equals
mapping over the empty list). -/
def overdue_projects (projects : List Project) (today : Int) : List Insight :=
  let overdue := projects.filter fun p =>
    match p.end_date with
    | some e => decide (e < today) && !(p.status == some "completed")
    | none => false
  overdue.map fun p =>
    let days_late := today - p.end_date.getD 0
    { type := "critical"
      icon := "FolderClock"
      title := "Projeto \"" ++ p.name ++ "\" passou do prazo"
      description := "O prazo terminou há " ++ toString days_late ++ " dia" ++
        (if days_late > 1 then "s" else "") ++ " e o projeto está " ++
        strOptInt p.progress ++ "% concluído." }

/-- `_unassigned_high_priority`: critical finding for high-priority,
unassigned, non-completed tasks. -/
def unassigned_high_priority (tasks : List Task) : List Insight :=
  let unassigned := tasks.filter fun t =>
    t.priority == some "high" && t.assignee_id.isNone &&
      !(t.status == some "completed")
  if unassigned.isEmpty then []
  else
    let count := unassigned.length
    let names := String.intercalate ", "
      ((unassigned.take 3).map fun t => "\"" ++ t.name ++ "\"")
    let extra := if count > 3 then " e mais " ++ toString (count - 3) else ""
    [{ type := "critical"
       icon := "UserX"
       title := toString count ++ " tarefa" ++ (if count > 1 then "s" else "") ++
         " de alta prioridade sem responsável",
       description := names ++ extra ++ " " ++
         (if count > 1 then "precisam" else "precisa") ++
         " de um responsável atribuído." }]

/-- `_due_soon_tasks`: warning for non-completed tasks with
`today <= end_date <= today + 3` (both ends inclusive). -/
def due_soon_tasks (tasks : List Task) (today : Int) : List Insight :=
  let deadline := today + 3
  let due_soon := tasks.filter fun t =>
    match t.end_date with
    | some e => decide (today ≤ e) && decide (e ≤ deadline) &&
        !(t.status == some "completed")
    | none => false
  if due_soon.isEmpty then []
  else
    let count := due_soon.length
    let names := String.intercalate ", "
      ((due_soon.take 3).map fun t => "\"" ++ t.name ++ "\"")
    [{ type := "warning"
       icon := "Clock"
       title := toString count ++ " tarefa" ++ (if count > 1 then "s" else "") ++
         " vencem nos próximos 3 dias",
       description := names ++ " " ++
         (if count > 1 then "precisam" else "precisa") ++ " de atenção." }]

/-- The assignee-id multiset of the active-status (`todo`, `in-progress`,
`review`) assigned tasks — the iterable fed to `Counter` in
`_overloaded_members`. -/
def activeAssigneeIds (tasks : List Task) : List String :=
  tasks.filterMap fun t =>
    match t.assignee_id with
    | some a =>
      if t.status == some "todo" || t.status == some "in-progress" ||
          t.status == some "review" then some a else none
    | none => none

/-- `member_map.get(mid, 'Desconhecido')` where
`member_map = {m.id: m.name for m in members}`. -/
def memberName (members : List TeamMember) (mid : String) : String :=
  match members.find? fun m => m.id == mid with
  | some m => m.name
  | none => "Desconhecido"

/-- `_overloaded_members`: one warning per member with at least 5 assigned
active-status tasks, in first-seen counter order. -/
def overloaded_members (tasks : List Task) (members : List TeamMember) :
    List Insight :=
  let threshold := 5
  let ids := activeAssigneeIds tasks
  let overloaded := (dedupFirst ids).filterMap fun mid =>
    let count := ids.count mid
    if count ≥ threshold then some (memberName members mid, count) else none
  overloaded.map fun nc =>
    { type := "warning"
      icon := "UserCog"
      title := nc.1 ++ " está sobrecarregado(a)"
      description := toString nc.2 ++
        " tarefas ativas atribuídas. Considere redistribuir a carga de trabalho." }

/-- The behind-schedule check for one project: the body of the loop in
`_behind_schedule_projects` (`none` = `continue`). -/
def behindFinding (today : Int) (p : Project) : Option Insight :=
  if p.status == some "completed" || p.status == some "on-hold" then none
  else match p.start_date, p.end_date with
  | some s, some e =>
    if e ≤ s then none
    else
      let total_days := e - s
      let elapsed_days := today - s
      if elapsed_days ≤ 0 ∨ total_days ≤ 0 then none
      else
        let expected_progress : ℚ :=
          min ((elapsed_days : ℚ) / (total_days : ℚ) * 100) 100
        let actual_progress : Int := p.progress.getD 0
        if 30 < expected_progress ∧
            (actual_progress : ℚ) < expected_progress * (7 / 10) then
          let diff := pyInt (expected_progress - (actual_progress : ℚ))
          some { type := "warning"
                 icon := "TrendingDown"
                 title := "\"" ++ p.name ++ "\" está atrás do cronograma"
                 description := "Progresso atual: " ++ toString actual_progress ++
                   "%. Esperado: " ++ toString (pyInt expected_progress) ++
                   "%. Diferença de " ++ toString diff ++ " pontos percentuais." }
        else none
  | _, _ => none

/-- `_behind_schedule_projects`: the loop over all projects. -/
def behind_schedule_projects (projects : List Project) (today : Int) :
    List Insight :=
  projects.filterMap (behindFinding today)

/-- `_recently_completed`: positive finding whenever completed tasks
exist; the percentage is over all tasks. -/
def recently_completed (tasks : List Task) : List Insight :=
  let completed := tasks.filter fun t => t.status == some "completed"
  if completed.isEmpty then []
  else
    let count := completed.length
    let total := tasks.length
    let pct : Nat := if total > 0 then count * 100 / total else 0
    [{ type := "positive"
       icon := "CheckCircle2"
       title := toString count ++ " tarefa" ++ (if count > 1 then "s" else "") ++
         " concluída" ++ (if count > 1 then "s" else ""),
       description := toString pct ++ "% de todas as tarefas foram finalizadas." }]

/-- The on-track check for one project: the body of the loop in
`_on_track_projects` (`none` = `continue` / not on track). -/
def onTrackCheck (today : Int) (p : Project) : Option Project :=
  if p.status == some "completed" || p.status == some "on-hold" then none
  else match p.start_date, p.end_date with
  | some s, some e =>
    if e ≤ s then none
    else
      let total_days := e - s
      let elapsed_days := today - s
      if elapsed_days ≤ 0 ∨ total_days ≤ 0 then none
      else
        let expected_progress : ℚ :=
          min ((elapsed_days : ℚ) / (total_days : ℚ) * 100) 100
        let actual_progress : Int := p.progress.getD 0
        if (actual_progress : ℚ) ≥ expected_progress then some p else none
  | _, _ => none

/-- `_on_track_projects`: positive finding naming up to 3 projects whose
progress meets the expected-by-time progress. -/
def on_track_projects (projects : List Project) (today : Int) : List Insight :=
  let on_track := projects.filterMap (onTrackCheck today)
  if on_track.isEmpty then []
  else
    let names := String.intercalate ", "
      ((on_track.take 3).map fun p => "\"" ++ p.name ++ "\"")
    let count := on_track.length
    [{ type := "positive"
       icon := "TrendingUp"
       title := toString count ++ " projeto" ++ (if count > 1 then "s" else "") ++
         " no prazo",
       description := names ++ " " ++
         (if count > 1 then "estão" else "está") ++
         " com progresso igual ou acima do esperado." }]

/-- `_top_performer`: positive finding for the member with the strictly
most completed-task credits (first-seen wins ties, as in
`Counter.most_common`), emitted only when that maximum is at least 2. -/
def top_performer (tasks : List Task) (members : List TeamMember) :
    List Insight :=
  let ids := tasks.filterMap fun t =>
    match t.assignee_id with
    | some a => if t.status == some "completed" then some a else none
    | none => none
  match dedupFirst ids with
  | [] => []
  | k0 :: keys =>
    let top_id := keys.foldl
      (fun best k => if ids.count k > ids.count best then k else best) k0
    let top_count := ids.count top_id
    if top_count < 2 then []
    else
      [{ type := "positive"
         icon := "Trophy"
         title := memberName members top_id ++ " lidera em entregas"
         description := toString top_count ++
           " tarefas concluídas. Maior número de entregas da equipe." }]

/-- `_summary_stats`: always one info record — an empty-state message when
no tasks exist, otherwise the counts summary (plural suffixes use
`!= 1`, unlike the `> 1` used elsewhere). -/
def summary_stats (tasks : List Task) (projects : List Project)
    (members : List TeamMember) : List Insight :=
  let active_projects := projects.filter fun p => p.status == some "active"
  let active_members := members.filter fun m => m.status == some "active"
  let total_tasks := tasks.length
  if total_tasks = 0 then
    [{ type := "info"
       icon := "Info"
       title := "Nenhuma tarefa cadastrada"
       description := "Comece criando projetos e tarefas para ver insights detalhados." }]
  else
    let high := (tasks.filter fun t =>
      t.priority == some "high" && !(t.status == some "completed")).length
    let medium := (tasks.filter fun t =>
      t.priority == some "medium" && !(t.status == some "completed")).length
    let low := (tasks.filter fun t =>
      t.priority == some "low" && !(t.status == some "completed")).length
    let np := active_projects.length
    let nm := active_members.length
    [{ type := "info"
       icon := "BarChart3"
       title := "Resumo geral"
       description := toString np ++ " projeto" ++ (if np ≠ 1 then "s" else "") ++
         " ativo" ++ (if np ≠ 1 then "s" else "") ++ ", " ++
         toString nm ++ " membro" ++ (if nm ≠ 1 then "s" else "") ++
         " disponível" ++ (if nm ≠ 1 then "is" else "") ++ ", " ++
         toString total_tasks ++ " tarefas no total. " ++
         "Pendentes por prioridade: " ++ toString high ++ " alta, " ++
         toString medium ++ " média, " ++ toString low ++ " baixa." }]

/-- The category-priority dict `{'critical': 0, 'warning': 1,
'positive': 2, 'info': 3}`. -/
def priorityOfType (t : String) : Option Nat :=
  if t = "critical" then some 0
  else if t = "warning" then some 1
  else if t = "positive" then some 2
  else if t = "info" then some 3
  else none

/-- The sort key `priority.get(i['type'], 99)`. -/
def insPriority (i : Insight) : Nat :=
  (priorityOfType i.type).getD 99

/-- Insert an element after every element of no-greater key — the
building block of a stable sort. -/
def insertSorted (i : Insight) : List Insight → List Insight
  | [] => [i]
  | j :: js =>
    if insPriority j ≤ insPriority i then j :: insertSorted i js
    else i :: j :: js

/-- `insights.sort(key=...)`: CPython's list sort is stable; any stable
sort computes the same list, modelled here by stable insertion sort. -/
def sortInsights (l : List Insight) : List Insight :=
  l.foldl (fun acc i => insertSorted i acc) []

/-- `InsightsService.generate()` on a loaded snapshot: run the ten rules
in their fixed order, concatenate, and sort by category priority. -/
def generate (tasks : List Task) (projects : List Project)
    (members : List TeamMember) (today : Int) : List Insight :=
  sortInsights
    (overdue_tasks tasks today ++
     overdue_projects projects today ++
     unassigned_high_priority tasks ++
     due_soon_tasks tasks today ++
     overloaded_members tasks members ++
     behind_schedule_projects projects today ++
     recently_completed tasks ++
     on_track_projects projects today ++
     top_performer tasks members ++
     summary_stats tasks projects members)

end InsightsService

/-! ## Derived vocabulary used by the claims -/

/-- The five role strings of the `Role` enum. -/
def knownRoles : List String :=
  ["viewer", "member", "manager", "department_admin", "admin"]

/-- The spec's `rank(role)`: the total-order rank, read off
`ROLE_HIERARCHY` with the fail-safe default 0 used for the actual role in
`has_role`. -/
def rank (role : String) : Nat :=
  (ROLE_HIERARCHY role).getD 0

/-! ## Claims -/

/-- C2: a `department_admin` principal fails `has_permission` for
`manage_users`, `manage_departments` and `manage_roles`, although its rank
3 exceeds the manager rank 2 — permission membership is decided by the
static `ROLE_PERMISSIONS` table, not inferred from rank. -/
theorem department_admin_permission_asymmetry :
    has_permission "department_admin" Permission.MANAGE_USERS = false ∧
    has_permission "department_admin" Permission.MANAGE_DEPARTMENTS = false ∧
    has_permission "department_admin" Permission.MANAGE_ROLES = false ∧
    rank "department_admin" = 3 ∧ rank "manager" = 2 ∧
    rank "manager" < rank "department_admin" := by
  decide

/-- C9: `rank` is the total order viewer=0, member=1, manager=2,
department_admin=3, admin=4, and for every pair of known roles with
`rank r1 < rank r2`, `has_role r1 r2` (atLeast) is false while
`has_role r2 r1` is true. -/
theorem role_rank_total_order :
    rank "viewer" = 0 ∧ rank "member" = 1 ∧ rank "manager" = 2 ∧
    rank "department_admin" = 3 ∧ rank "admin" = 4 ∧
    ∀ r1 r2, r1 ∈ knownRoles → r2 ∈ knownRoles → rank r1 < rank r2 →
      has_role r1 r2 = false ∧ has_role r2 r1 = true := by
  refine ⟨by decide, by decide, by decide, by decide, by decide, ?_⟩
  intro r1 r2 h1 h2
  simp only [knownRoles, List.mem_cons, List.not_mem_nil, or_false] at h1 h2
  rcases h1 with rfl | rfl | rfl | rfl | rfl <;>
    rcases h2 with rfl | rfl | rfl | rfl | rfl <;> decide

/-- Witness for C9 at the concrete pair (viewer, member). -/
theorem role_rank_total_order_witness :
    has_role "viewer" "member" = false ∧ has_role "member" "viewer" = true :=
  role_rank_total_order.2.2.2.2.2 "viewer" "member"
    (by decide) (by decide) (by decide)

/-- C1: a principal whose account is inactive is denied by every
authorization check class — role-gated, permission-gated, project resource
access and task resource access — with the `AccountDeactivated` kind,
regardless of role or policy flags. -/
theorem inactive_always_account_deactivated
    (db : DB) (u : User) (user_id : String)
    (hu : getUser db user_id = some u) (hin : u.is_active = false) :
    (∀ required_role, require_role required_role user_id db =
      .error .AccountDeactivated) ∧
    (∀ p, require_permission p user_id db = .error .AccountDeactivated) ∧
    (∀ ao am amgr pid, require_project_access ao am amgr user_id (some pid) db =
      .error .AccountDeactivated) ∧
    (∀ aa apm tid, require_task_access aa apm user_id (some tid) db =
      .error .AccountDeactivated) := by
  refine ⟨?_, ?_, ?_, ?_⟩ <;> intros <;>
    simp [require_role, require_permission, require_project_access,
      require_task_access, hu, hin]

/-- A deactivated admin-role account, for the C1 witness. -/
def inactiveUser : User :=
  { id := "u0"
    email := "u0@example.com"
    role := some "admin"
    is_active := false
    department_id := none }

/-- Store holding only the deactivated account, for the C1 witness. -/
def inactiveDb : DB :=
  { users := [inactiveUser]
    projects := []
    tasks := []
    team_members := []
    project_members := [] }

/-- Witness for C1: all four checks deny the concrete inactive admin with
`AccountDeactivated`. -/
theorem inactive_always_account_deactivated_witness :
    getUser inactiveDb "u0" = some inactiveUser ∧
    inactiveUser.is_active = false ∧
    require_role "viewer" "u0" inactiveDb = .error .AccountDeactivated ∧
    require_permission Permission.VIEW_TASKS "u0" inactiveDb =
      .error .AccountDeactivated ∧
    require_project_access true true true "u0" (some "p0") inactiveDb =
      .error .AccountDeactivated ∧
    require_task_access true true "u0" (some "t0") inactiveDb =
      .error .AccountDeactivated := by
  have h := inactive_always_account_deactivated inactiveDb inactiveUser "u0"
    (by rfl) (by rfl)
  exact ⟨by rfl, by rfl, h.1 "viewer", h.2.1 Permission.VIEW_TASKS,
    h.2.2.1 true true true "p0", h.2.2.2 true true "t0"⟩

/-- C10: `update_progress` stores `max(0, min(100, p))` — out-of-range
input is clamped, never rejected — marks the task completed exactly when
the raw input is 100, resets a completed task to todo exactly when the raw
input is 0, and otherwise leaves the status unchanged. -/
theorem update_progress_clamps_and_couples (t : Task) (p : Int) :
    (TaskService.update_progress t p).progress = some (max 0 (min 100 p)) ∧
    ((TaskService.update_progress t p).status = some "completed" ↔
      (p = 100 ∨ (t.status = some "completed" ∧ p ≠ 0))) ∧
    (p = 0 → t.status = some "completed" →
      (TaskService.update_progress t p).status = some "todo") ∧
    (p ≠ 100 → ¬(p = 0 ∧ t.status = some "completed") →
      (TaskService.update_progress t p).status = t.status) := by
  unfold TaskService.update_progress
  by_cases h100 : p = 100 <;> by_cases h0 : p = 0 <;>
    by_cases hc : t.status = some "completed" <;>
    simp_all

/-- A mid-flight task, for the C10 witness. -/
def progressTask : Task :=
  { id := "t10"
    name := "t10"
    description := ""
    status := some "in-progress"
    priority := some "medium"
    progress := some 10
    start_date := none
    end_date := none
    assignee_id := none
    project_id := "p10" }

/-- Witness for C10 at raw input 150: progress is clamped to 100 yet the
status is not marked completed. -/
theorem update_progress_clamps_and_couples_witness :
    (TaskService.update_progress progressTask 150).progress = some 100 ∧
    ¬((TaskService.update_progress progressTask 150).status =
      some "completed") := by
  have h := update_progress_clamps_and_couples progressTask 150
  refine ⟨by simpa using h.1, ?_⟩
  rw [h.2.1]
  decide

/-- C5: insights generation is a deterministic pure function of the
snapshot (tasks, projects, team members) and `today`: equal inputs yield
identical output lists.  Freedom from side effects holds by construction —
`generate` is a pure function of its snapshot arguments. -/
theorem insights_deterministic (t1 t2 : List Task) (p1 p2 : List Project)
    (m1 m2 : List TeamMember) (d1 d2 : Int)
    (ht : t1 = t2) (hp : p1 = p2) (hm : m1 = m2) (hd : d1 = d2) :
    InsightsService.generate t1 p1 m1 d1 =
      InsightsService.generate t2 p2 m2 d2 := by
  subst ht hp hm hd
  rfl

/-- Witness for C5 on the empty snapshot. -/
theorem insights_deterministic_witness :
    InsightsService.generate [] [] [] 0 = InsightsService.generate [] [] [] 0 :=
  insights_deterministic [] [] [] [] [] [] 0 0 rfl rfl rfl rfl

/-- The claim's unified resource-access decision procedure, instantiated
for a task with every caller flag set (the caller of `require_task_access`
can set at most `allow_assignee` and `allow_project_member`; with all of
them set, every flag-guarded rule of the claim is enabled): (1) admin;
(2) rank at least manager; (3) owner by walking Task → Project → ownerId;
(4) assignee or member of the task's project.  This follows the claim's
words, for comparison against `require_task_access`. -/
def claimedTaskAccessAllFlags (db : DB) (uid tid : String) : Bool :=
  match getUser db uid, getTask db tid with
  | some u, some task =>
    let role := u.role.getD "member"
    if has_role role "admin" then true
    else if has_role role "manager" then true
    else if (match getProject db task.project_id with
             | some p => p.owner_id == some uid
             | none => false) then true
    else if is_task_assignee db uid tid ||
        is_project_member db uid task.project_id then true
    else false
  | _, _ => false

/-- An active member-role user who owns a project, for the C3
counterexample: they have no team-member row, so they are neither the
assignee of the project's task nor a member of the project. -/
def ownerUser : User :=
  { id := "u1"
    email := "u1@example.com"
    role := some "member"
    is_active := true
    department_id := none }

/-- The project owned by `ownerUser`. -/
def ownedProject : Project :=
  { id := "p1"
    name := "P1"
    status := some "active"
    progress := some 0
    start_date := some 0
    end_date := some 10
    owner_id := some "u1" }

/-- An unassigned task inside `ownedProject`. -/
def ownedTask : Task :=
  { id := "t1"
    name := "T1"
    description := ""
    status := some "todo"
    priority := some "medium"
    progress := some 0
    start_date := some 0
    end_date := some 10
    assignee_id := none
    project_id := "p1" }

/-- Store for the C3 counterexample. -/
def ownerDb : DB :=
  { users := [ownerUser]
    projects := [ownedProject]
    tasks := [ownedTask]
    team_members := []
    project_members := [] }

/-- Counterexample to C3: the project owner (role `member`, active, task
and project exist, all caller flags set) is allowed by the claim's
procedure through its owner rule (3), but `require_task_access` denies —
the task check has no owner rule. -/
theorem task_access_owner_rule_counterexample :
    ¬ (require_task_access true true "u1" (some "t1") ownerDb =
        Except.ok () ↔
       claimedTaskAccessAllFlags ownerDb "u1" "t1" = true) := by
  decide

/-- Condition (a || b || c || d) as the first-match cascade it encodes. -/
theorem ite_or4 {α : Type} (a b c d : Bool) (x y : α) :
    (if a then x else if b then x else if c then x else if d then x else y) =
      (if a || b || c || d then x else y) := by
  cases a <;> cases b <;> cases c <;> cases d <;> rfl

/-- Condition (a || b || c) as the first-match cascade it encodes. -/
theorem ite_or3 {α : Type} (a b c : Bool) (x y : α) :
    (if a then x else if b then x else if c then x else y) =
      (if a || b || c then x else y) := by
  cases a <;> cases b <;> cases c <;> rfl

/-- C3 as amended: for an active principal and an existing resource, the
PROJECT check grants exactly on the claimed first-match precedence —
admin, then manager rank with `allow_manager`, then owner with
`allow_owner`, then project member with `allow_member` — while the TASK
check allows any principal of at least manager rank unconditionally (no
manager flag exists), then the assignee when `allow_assignee`, then a
member of the task's project when `allow_project_member`; tasks have no
owner rule.  In both checks everything else is denied with `AccessDenied`. -/
theorem resource_access_precedence
    (db : DB) (u : User) (uid pid tid : String) (proj : Project) (task : Task)
    (ao am amgr aa apm : Bool)
    (hu : getUser db uid = some u) (hact : u.is_active = true)
    (hp : getProject db pid = some proj) (ht : getTask db tid = some task) :
    require_project_access ao am amgr uid (some pid) db =
      (if has_role (u.role.getD "member") "admin" ||
          (amgr && has_role (u.role.getD "member") "manager") ||
          (ao && is_project_owner db uid pid) ||
          (am && is_project_member db uid pid)
       then Except.ok () else Except.error ErrKind.AccessDenied) ∧
    require_task_access aa apm uid (some tid) db =
      (if has_role (u.role.getD "member") "manager" ||
          (aa && is_task_assignee db uid tid) ||
          (apm && is_project_member db uid task.project_id)
       then Except.ok () else Except.error ErrKind.AccessDenied) := by
  constructor
  · show (match getUser db uid with
      | none => Except.error ErrKind.ResourceNotFound
      | some user =>
        if !user.is_active then Except.error ErrKind.AccountDeactivated
        else match getProject db pid with
          | none => Except.error ErrKind.ResourceNotFound
          | some _ =>
            let user_role := user.role.getD "member"
            if has_role user_role "admin" then Except.ok ()
            else if amgr && has_role user_role "manager" then Except.ok ()
            else if ao && is_project_owner db uid pid then Except.ok ()
            else if am && is_project_member db uid pid then Except.ok ()
            else Except.error ErrKind.AccessDenied) = _
    rw [hu, hp]
    simp only [hact, Bool.not_true, Bool.false_eq_true, if_false]
    exact ite_or4 _ _ _ _ _ _
  · show (match getUser db uid with
      | none => Except.error ErrKind.ResourceNotFound
      | some user =>
        if !user.is_active then Except.error ErrKind.AccountDeactivated
        else match getTask db tid with
          | none => Except.error ErrKind.ResourceNotFound
          | some task =>
            let user_role := user.role.getD "member"
            if has_role user_role "manager" then Except.ok ()
            else if aa && is_task_assignee db uid tid then Except.ok ()
            else if apm && is_project_member db uid task.project_id then
              Except.ok ()
            else Except.error ErrKind.AccessDenied) = _
    rw [hu, ht]
    simp only [hact, Bool.not_true, Bool.false_eq_true, if_false]
    exact ite_or3 _ _ _ _ _

/-- Witness for C3's amended statement on the counterexample store: the
owner below manager rank is denied task access even with all flags set. -/
theorem resource_access_precedence_witness :
    require_project_access true true true "u1" (some "p1") ownerDb =
      Except.ok () ∧
    require_task_access true true "u1" (some "t1") ownerDb =
      Except.error ErrKind.AccessDenied := by
  have h := resource_access_precedence ownerDb ownerUser "u1" "p1" "t1"
    ownedProject ownedTask true true true true true rfl rfl rfl rfl
  refine ⟨?_, ?_⟩
  · rw [h.1]; decide
  · rw [h.2]; decide

/-- A todo task at progress 0, for the C4 counterexample. -/
def todoTask : Task :=
  { id := "t4"
    name := "T4"
    description := ""
    status := some "todo"
    priority := some "medium"
    progress := some 0
    start_date := none
    end_date := none
    assignee_id := none
    project_id := "p4" }

/-- A full-update payload carrying only `progress = 100`. -/
def progress100Data : TaskUpdateData :=
  { progress := some 100 }

/-- Counterexample to C4: a full update that sets progress to 100 does NOT
force status to completed — `TaskService.update` stores the progress and
leaves the status untouched. -/
theorem full_update_progress100_counterexample :
    ¬ ((TaskService.update todoTask progress100Data).progress = some 100 →
       (TaskService.update todoTask progress100Data).status =
         some "completed") := by
  decide

/-- C4 as amended: the status=completed ⇔ progress=100 coupling is
enforced bidirectionally by the status-only and progress-only updates
(status completed forces progress 100; status todo forces progress 0; raw
progress 100 forces status completed; raw progress 0 on a completed task
forces status todo), but the full update enforces only the
status → progress direction: when it carries a status and no progress,
completed forces progress 100 and todo with prior progress 100 forces
progress 0, while a progress value carried without a status never changes
the status. -/
theorem task_status_progress_coupling
    (t : Task) (s : String) (d : TaskUpdateData) (p : Int) :
    (∀ t2, TaskService.update_status t s = some t2 →
      (s = "completed" → t2.status = some "completed" ∧
        t2.progress = some 100) ∧
      (s = "todo" → t2.status = some "todo" ∧ t2.progress = some 0)) ∧
    (p = 100 → (TaskService.update_progress t p).status = some "completed" ∧
      (TaskService.update_progress t p).progress = some 100) ∧
    (p = 0 → t.status = some "completed" →
      (TaskService.update_progress t p).status = some "todo" ∧
      (TaskService.update_progress t p).progress = some 0) ∧
    (d.status = some "completed" → d.progress = none →
      (TaskService.update t d).progress = some 100 ∧
      (TaskService.update t d).status = some "completed") ∧
    (d.status = some "todo" → t.progress = some 100 → d.progress = none →
      (TaskService.update t d).progress = some 0) ∧
    (d.status = none → ∀ q, d.progress = some q →
      (TaskService.update t d).status = t.status) := by
  obtain ⟨dn, dd, ds, dp, dprog, dsd, ded, da, dpid⟩ := d
  refine ⟨?_, ?_, ?_, ?_, ?_, ?_⟩
  · intro t2 ht2
    constructor
    · rintro rfl
      simp [TaskService.update_status] at ht2
      subst ht2
      exact ⟨rfl, rfl⟩
    · rintro rfl
      simp [TaskService.update_status] at ht2
      subst ht2
      exact ⟨rfl, rfl⟩
  · rintro rfl
    simp [TaskService.update_progress]
  · rintro rfl hc
    simp [TaskService.update_progress, hc]
  · rintro rfl rfl
    cases dn <;> cases dd <;> cases dp <;> cases dsd <;> cases ded <;>
      cases da <;> cases dpid <;>
      simp [TaskService.update, sanitizeTaskStatus]
  · rintro rfl h100 rfl
    cases dn <;> cases dd <;> cases dp <;> cases dsd <;> cases ded <;>
      cases da <;> cases dpid <;>
      simp [TaskService.update, sanitizeTaskStatus, h100]
  · rintro rfl q rfl
    cases dn <;> cases dd <;> cases dp <;> cases dsd <;> cases ded <;>
      cases da <;> cases dpid <;>
      simp [TaskService.update, sanitizeTaskStatus]

/-- Witness for C4's amended statement at concrete inputs: the quick
updates couple in both directions, the full update couples only
status → progress. -/
theorem task_status_progress_coupling_witness :
    (∀ t2, TaskService.update_status todoTask "completed" = some t2 →
      "completed" = "completed" →
      t2.status = some "completed" ∧ t2.progress = some 100) ∧
    ((TaskService.update_progress todoTask 100).status = some "completed" ∧
      (TaskService.update_progress todoTask 100).progress = some 100) ∧
    (TaskService.update todoTask progress100Data).status = todoTask.status := by
  have h := task_status_progress_coupling todoTask "completed"
    progress100Data 100
  refine ⟨fun t2 ht2 _ => (h.1 t2 ht2).1 rfl, h.2.1 rfl, ?_⟩
  exact h.2.2.2.2.2 rfl 100 rfl

/-- A fresh invite expiring at instant 0, for the C8 counterexample. -/
def boundaryInvite : Invite :=
  { token := "tok"
    email := "new@example.com"
    role := "member"
    department_id := none
    password := none
    created_by := none
    expires_at := 0
    used_at := none
    revoked_at := none }

/-- Counterexample to C8: at the boundary instant `now = expiresAt` the
invite is still VALID — `is_expired` is `now > expiresAt`, so validity is
`now <= expiresAt`, not the claimed strict `now < expiresAt`. -/
theorem invite_validity_boundary_counterexample :
    ¬ (Invite.is_valid boundaryInvite 0 = true ↔
       (0 < boundaryInvite.expires_at ∧ boundaryInvite.used_at = none ∧
        boundaryInvite.revoked_at = none)) := by
  decide

/-- C8 as amended: a token is valid exactly when `now <= expiresAt` and
`usedAt` and `revokedAt` are null (so at the boundary instant
`now = expiresAt` it is still valid), and acceptance through the service
succeeds only for a token that resolves to a valid invite. -/
theorem invite_validity_and_acceptance :
    (∀ inv now, Invite.is_valid inv now = true ↔
      (now ≤ inv.expires_at ∧ inv.used_at = none ∧ inv.revoked_at = none)) ∧
    (∀ token password invites users now nu,
      InviteService.accept token password invites users now = .ok nu →
      ∃ inv, InviteService.get_valid_by_token token invites now = some inv ∧
        Invite.is_valid inv now = true) := by
  constructor
  · intro inv now
    simp [Invite.is_valid, Invite.is_expired, Invite.is_used,
      Invite.is_revoked, Option.isSome_iff_ne_none, not_lt, and_assoc]
  · intro token password invites users now nu h
    unfold InviteService.accept at h
    cases hg : InviteService.get_valid_by_token token invites now with
    | none =>
      rw [hg] at h
      exact absurd h (by simp)
    | some inv =>
      refine ⟨inv, rfl, ?_⟩
      unfold InviteService.get_valid_by_token at hg
      cases hf : InviteService.get_by_token token invites with
      | none => rw [hf] at hg; cases hg
      | some i0 =>
        rw [hf] at hg
        have hg2 : (if i0.is_valid now = true then some i0 else none) =
            some inv := hg
        by_cases hv : i0.is_valid now = true
        · rw [if_pos hv] at hg2
          cases hg2
          exact hv
        · rw [if_neg hv] at hg2
          cases hg2

/-- A valid invite expiring at instant 5, for the C8 witness. -/
def freshInvite : Invite :=
  { token := "tok5"
    email := "fresh@example.com"
    role := "member"
    department_id := none
    password := none
    created_by := none
    expires_at := 5
    used_at := none
    revoked_at := none }

/-- Witness for C8's amended statement: the invite is valid at the exact
expiry instant, and a successful acceptance at that instant resolves a
valid invite. -/
theorem invite_validity_and_acceptance_witness :
    Invite.is_valid freshInvite 5 = true ∧
    ∃ inv, InviteService.get_valid_by_token "tok5" [freshInvite] 5 =
        some inv ∧ Invite.is_valid inv 5 = true := by
  constructor
  · exact (invite_validity_and_acceptance.1 freshInvite 5).mpr
      ⟨by decide, rfl, rfl⟩
  · exact invite_validity_and_acceptance.2 "tok5" (some "pw") [freshInvite]
      [] 5 _ rfl

/-- The behind-schedule trigger exactly as the claim states it: status
neither completed nor on-hold, both dates present with endDate strictly
after startDate, expected progress `min(elapsed/total * 100, 100)`
exceeding 30, and actual progress below 0.7 × expected.  Written from the
claim's words, for comparison with `behindFinding`. -/
def behindScheduleTriggerSpec (p : Project) (today : Int) : Bool :=
  !(p.status == some "completed" || p.status == some "on-hold") &&
    match p.start_date, p.end_date with
    | some s, some e =>
      decide (s < e) &&
        (let expected : ℚ :=
          min (((today - s : Int) : ℚ) / (((e - s : Int)) : ℚ) * 100) 100
         decide (30 < expected) &&
           decide (((p.progress.getD 0 : Int) : ℚ) < (7 / 10) * expected))
    | _, _ => false

/-- The behind-schedule rule fires on a project exactly when the claim's
trigger holds: the source's extra `elapsed <= 0 or total <= 0` guard is
redundant (total > 0 follows from start < end, and elapsed <= 0 makes the
expected progress nonpositive, hence not above 30). -/
theorem behindFinding_isSome_eq (p : Project) (today : Int) :
    (InsightsService.behindFinding today p).isSome =
      behindScheduleTriggerSpec p today := by
  unfold InsightsService.behindFinding behindScheduleTriggerSpec
  cases hcs : (p.status == some "completed" || p.status == some "on-hold") with
  | true => simp [hcs]
  | false =>
    simp only [hcs, Bool.not_false, Bool.true_and, Bool.false_eq_true,
      if_false]
    cases hsd : p.start_date with
    | none => simp
    | some s =>
      cases hed : p.end_date with
      | none => simp
      | some e =>
        dsimp only
        by_cases hes : e ≤ s
        · rw [if_pos hes, decide_eq_false (not_lt.mpr hes)]
          simp
        · have hlt : s < e := not_le.mp hes
          by_cases h30 : (30 : ℚ) <
              min (((today - s : Int) : ℚ) / (((e - s : Int)) : ℚ) * 100) 100
          · have hel : ¬((today - s : Int) ≤ 0 ∨ (e - s : Int) ≤ 0) := by
              rintro (h | h)
              · have hq1 : ((today - s : Int) : ℚ) ≤ 0 := by exact_mod_cast h
                have hq2 : (0 : ℚ) < ((e - s : Int) : ℚ) := by
                  exact_mod_cast (by omega : (0 : Int) < e - s)
                have hdiv : ((today - s : Int) : ℚ) / ((e - s : Int) : ℚ) ≤ 0 :=
                  div_nonpos_iff.mpr (Or.inr ⟨hq1, hq2.le⟩)
                have hmul : ((today - s : Int) : ℚ) / ((e - s : Int) : ℚ) *
                    100 ≤ 0 := by nlinarith
                have := min_le_left
                  (((today - s : Int) : ℚ) / ((e - s : Int) : ℚ) * 100)
                  (100 : ℚ)
                linarith [h30]
              · omega
            by_cases hact : ((p.progress.getD 0 : Int) : ℚ) <
                min (((today - s : Int) : ℚ) / (((e - s : Int)) : ℚ) * 100)
                  100 * (7 / 10)
            · rw [if_neg hes, if_neg hel, if_pos ⟨h30, hact⟩,
                decide_eq_true hlt, decide_eq_true h30,
                decide_eq_true (hact.trans_eq (mul_comm _ _))]
              rfl
            · rw [if_neg hes, if_neg hel,
                if_neg (fun hand => hact hand.2),
                decide_eq_false
                  (show ¬(((p.progress.getD 0 : Int) : ℚ) <
                      7 / 10 *
                        min (((today - s : Int) : ℚ) /
                          (((e - s : Int)) : ℚ) * 100) 100) from
                    fun h2 => hact (h2.trans_eq (mul_comm _ _)))]
              simp
          · rw [if_neg hes, decide_eq_false h30]
            by_cases hel : ((today - s : Int) ≤ 0 ∨ (e - s : Int) ≤ 0)
            · rw [if_pos hel]
              simp
            · rw [if_neg hel, if_neg (fun hand => h30 hand.1)]
              simp

/-- C6: the behind-schedule rule emits a warning finding exactly when the
claim's trigger holds (projects with endDate <= startDate are silently
excluded), and the concrete scenario — startDate = today-10,
endDate = today+10, progress 20 — yields one warning finding reporting a
difference of 30 percentage points. -/
theorem behind_schedule_rule (p : Project) (today : Int) :
    (InsightsService.behind_schedule_projects [p] today ≠ [] ↔
      behindScheduleTriggerSpec p today = true) ∧
    InsightsService.behind_schedule_projects
      [{ id := "pX"
         name := "P"
         status := some "active"
         progress := some 20
         start_date := some (today - 10)
         end_date := some (today + 10)
         owner_id := none }] today =
      [{ type := "warning"
         icon := "TrendingDown"
         title := "\"P\" está atrás do cronograma"
         description := "Progresso atual: 20%. Esperado: 50%. Diferença de 30 pontos percentuais." }] := by
  constructor
  · rw [← behindFinding_isSome_eq]
    unfold InsightsService.behind_schedule_projects
    cases h : InsightsService.behindFinding today p <;>
      simp [List.filterMap_cons, h]
  · unfold InsightsService.behind_schedule_projects
    simp only [List.filterMap_cons, List.filterMap_nil]
    have hkey : InsightsService.behindFinding today
        { id := "pX"
          name := "P"
          status := some "active"
          progress := some 20
          start_date := some (today - 10)
          end_date := some (today + 10)
          owner_id := none } =
        some { type := "warning"
               icon := "TrendingDown"
               title := "\"P\" está atrás do cronograma"
               description := "Progresso atual: 20%. Esperado: 50%. Diferença de 30 pontos percentuais." } := by
      have h1 : ¬((today + 10 : Int) ≤ today - 10) := by omega
      have h2 : (today - (today - 10) : Int) = 10 := by ring
      have h3 : ((today + 10) - (today - 10) : Int) = 20 := by ring
      simp only [InsightsService.behindFinding, Option.getD_some]
      rw [if_neg (by decide)]
      rw [if_neg h1, h2, h3]
      rw [if_neg (by decide : ¬(((10 : Int)) ≤ 0 ∨ ((20 : Int)) ≤ 0))]
      have hE : min (((10 : Int) : ℚ) / ((20 : Int) : ℚ) * 100) 100 =
          (50 : ℚ) := by
        rw [show (((10 : Int) : ℚ) / ((20 : Int) : ℚ) * 100) = (50 : ℚ) by
          norm_num]
        exact min_eq_left (by norm_num)
      rw [hE]
      rw [if_pos (by norm_num : (30 : ℚ) < 50 ∧
        (((20 : Int)) : ℚ) < 50 * (7 / 10))]
      have hd1 : pyInt (50 : ℚ) = 50 := by
        unfold pyInt
        rw [if_neg (by norm_num), show (50 : ℚ) = ((50 : Int) : ℚ) by
          norm_num, Int.floor_intCast]
      have hd2 : pyInt ((50 : ℚ) - ((20 : Int) : ℚ)) = 30 := by
        unfold pyInt
        rw [show ((50 : ℚ) - ((20 : Int) : ℚ)) = ((30 : Int) : ℚ) by
          push_cast; ring]
        rw [if_neg (by norm_num), Int.floor_intCast]
      rw [hd1, hd2]
      rfl
    rw [hkey]

/-- Witness for C6: on the concrete trigger instance today = 0, the rule
fires (the output list is nonempty and the spec trigger holds). -/
theorem behind_schedule_rule_witness :
    InsightsService.behind_schedule_projects
      [{ id := "pX"
         name := "P"
         status := some "active"
         progress := some 20
         start_date := some ((0 : Int) - 10)
         end_date := some ((0 : Int) + 10)
         owner_id := none }] 0 ≠ [] := by
  have h := behind_schedule_rule
    { id := "pX"
      name := "P"
      status := some "active"
      progress := some 20
      start_date := some ((0 : Int) - 10)
      end_date := some ((0 : Int) + 10)
      owner_id := none } 0
  rw [h.2]
  simp

/-- The category order on insights, compared through the sort key
`insPriority`. -/
def insLE (a b : Insight) : Prop :=
  InsightsService.insPriority a ≤ InsightsService.insPriority b

/-- Every overdue-tasks finding is critical (key 0). -/
theorem overdue_tasks_key (tasks : List Task) (today : Int) :
    ∀ i ∈ InsightsService.overdue_tasks tasks today,
      InsightsService.insPriority i = 0 := by
  intro i hi
  simp only [InsightsService.overdue_tasks] at hi
  split at hi
  · exact absurd hi (List.not_mem_nil i)
  · rw [List.mem_singleton] at hi
    subst hi
    rfl

/-- Every overdue-projects finding is critical (key 0). -/
theorem overdue_projects_key (projects : List Project) (today : Int) :
    ∀ i ∈ InsightsService.overdue_projects projects today,
      InsightsService.insPriority i = 0 := by
  intro i hi
  simp only [InsightsService.overdue_projects, List.mem_map] at hi
  obtain ⟨p, -, rfl⟩ := hi
  rfl

/-- Every unassigned-high-priority finding is critical (key 0). -/
theorem unassigned_high_priority_key (tasks : List Task) :
    ∀ i ∈ InsightsService.unassigned_high_priority tasks,
      InsightsService.insPriority i = 0 := by
  intro i hi
  simp only [InsightsService.unassigned_high_priority] at hi
  split at hi
  · exact absurd hi (List.not_mem_nil i)
  · rw [List.mem_singleton] at hi
    subst hi
    rfl

/-- Every due-soon finding is a warning (key 1). -/
theorem due_soon_tasks_key (tasks : List Task) (today : Int) :
    ∀ i ∈ InsightsService.due_soon_tasks tasks today,
      InsightsService.insPriority i = 1 := by
  intro i hi
  simp only [InsightsService.due_soon_tasks] at hi
  split at hi
  · exact absurd hi (List.not_mem_nil i)
  · rw [List.mem_singleton] at hi
    subst hi
    rfl

/-- Every overloaded-member finding is a warning (key 1). -/
theorem overloaded_members_key (tasks : List Task)
    (members : List TeamMember) :
    ∀ i ∈ InsightsService.overloaded_members tasks members,
      InsightsService.insPriority i = 1 := by
  intro i hi
  simp only [InsightsService.overloaded_members, List.mem_map] at hi
  obtain ⟨nc, -, rfl⟩ := hi
  rfl

/-- Every behind-schedule finding is a warning (key 1). -/
theorem behind_schedule_key (projects : List Project) (today : Int) :
    ∀ i ∈ InsightsService.behind_schedule_projects projects today,
      InsightsService.insPriority i = 1 := by
  intro i hi
  simp only [InsightsService.behind_schedule_projects,
    List.mem_filterMap] at hi
  obtain ⟨p, -, hf⟩ := hi
  simp only [InsightsService.behindFinding] at hf
  repeat' split at hf
  all_goals first
    | (rw [Option.some.injEq] at hf; subst hf; rfl)
    | cases hf

/-- Every recently-completed finding is positive (key 2). -/
theorem recently_completed_key (tasks : List Task) :
    ∀ i ∈ InsightsService.recently_completed tasks,
      InsightsService.insPriority i = 2 := by
  intro i hi
  simp only [InsightsService.recently_completed] at hi
  split at hi
  · exact absurd hi (List.not_mem_nil i)
  · rw [List.mem_singleton] at hi
    subst hi
    rfl

/-- Every on-track finding is positive (key 2). -/
theorem on_track_projects_key (projects : List Project) (today : Int) :
    ∀ i ∈ InsightsService.on_track_projects projects today,
      InsightsService.insPriority i = 2 := by
  intro i hi
  simp only [InsightsService.on_track_projects] at hi
  split at hi
  · exact absurd hi (List.not_mem_nil i)
  · rw [List.mem_singleton] at hi
    subst hi
    rfl

/-- Every top-performer finding is positive (key 2). -/
theorem top_performer_key (tasks : List Task) (members : List TeamMember) :
    ∀ i ∈ InsightsService.top_performer tasks members,
      InsightsService.insPriority i = 2 := by
  intro i hi
  simp only [InsightsService.top_performer] at hi
  split at hi
  · exact absurd hi (List.not_mem_nil i)
  · split at hi
    · exact absurd hi (List.not_mem_nil i)
    · rw [List.mem_singleton] at hi
      subst hi
      rfl

/-- Every summary finding is informational (key 3). -/
theorem summary_stats_key (tasks : List Task) (projects : List Project)
    (members : List TeamMember) :
    ∀ i ∈ InsightsService.summary_stats tasks projects members,
      InsightsService.insPriority i = 3 := by
  intro i hi
  simp only [InsightsService.summary_stats] at hi
  split at hi
  · rw [List.mem_singleton] at hi
    subst hi
    rfl
  · rw [List.mem_singleton] at hi
    subst hi
    rfl

/-- A constant-key list is sorted. -/
theorem pairwise_const (l : List Insight) (k : Nat)
    (hl : ∀ i ∈ l, InsightsService.insPriority i = k) :
    List.Pairwise insLE l := by
  induction l with
  | nil => exact List.Pairwise.nil
  | cons a as ih =>
    refine List.Pairwise.cons (fun b hb => ?_)
      (ih fun i hi => hl i (List.mem_cons_of_mem a hi))
    show InsightsService.insPriority a ≤ InsightsService.insPriority b
    rw [hl a (List.mem_cons_self a as), hl b (List.mem_cons_of_mem a hb)]

/-- Prepending a constant-key block below a sorted, bounded tail keeps the
concatenation sorted and bounded by the block's key. -/
theorem pairwise_block_append (l rest : List Insight) (k : Nat)
    (hl : ∀ i ∈ l, InsightsService.insPriority i = k)
    (hrest : List.Pairwise insLE rest)
    (hlb : ∀ b ∈ rest, k ≤ InsightsService.insPriority b) :
    List.Pairwise insLE (l ++ rest) ∧
      ∀ b ∈ l ++ rest, k ≤ InsightsService.insPriority b := by
  constructor
  · refine List.pairwise_append.mpr ⟨pairwise_const l k hl, hrest, ?_⟩
    intro a ha b hb
    show InsightsService.insPriority a ≤ InsightsService.insPriority b
    rw [hl a ha]
    exact hlb b hb
  · intro b hb
    rcases List.mem_append.mp hb with h | h
    · exact le_of_eq (hl b h).symm
    · exact hlb b h

/-- Inserting an element whose key dominates the accumulator appends it. -/
theorem insertSorted_of_le (i : Insight) (acc : List Insight)
    (h : ∀ j ∈ acc,
      InsightsService.insPriority j ≤ InsightsService.insPriority i) :
    InsightsService.insertSorted i acc = acc ++ [i] := by
  induction acc with
  | nil => rfl
  | cons j js ih =>
    unfold InsightsService.insertSorted
    rw [if_pos (h j (List.mem_cons_self j js)),
      ih fun k hk => h k (List.mem_cons_of_mem j hk)]
    rfl

/-- Folding the stable insertion over an already sorted input reproduces
the input after the sorted accumulator. -/
theorem foldl_insertSorted_sorted (l : List Insight) :
    ∀ acc : List Insight, List.Pairwise insLE acc →
      List.Pairwise insLE l → (∀ a ∈ acc, ∀ b ∈ l, insLE a b) →
      List.foldl (fun acc i => InsightsService.insertSorted i acc) acc l =
        acc ++ l := by
  induction l with
  | nil => intro acc _ _ _; simp
  | cons x xs ih =>
    intro acc hacc hl hcross
    have hPW2 : List.Pairwise insLE (acc ++ [x]) := by
      refine List.pairwise_append.mpr
        ⟨hacc, List.pairwise_singleton _ _, ?_⟩
      intro a ha b hb
      rw [List.mem_singleton] at hb
      subst hb
      exact hcross a ha b (List.mem_cons_self b xs)
    have hcross2 : ∀ a ∈ acc ++ [x], ∀ b ∈ xs, insLE a b := by
      intro a ha b hb
      rcases List.mem_append.mp ha with h | h
      · exact hcross a h b (List.mem_cons_of_mem x hb)
      · rw [List.mem_singleton] at h
        subst h
        exact (List.pairwise_cons.mp hl).1 b hb
    rw [List.foldl_cons,
      insertSorted_of_le x acc
        (fun j hj => hcross j hj x (List.mem_cons_self x xs)),
      ih (acc ++ [x]) hPW2 (List.pairwise_cons.mp hl).2 hcross2]
    simp

/-- A stable sort of an already sorted list is the identity. -/
theorem sortInsights_of_sorted (l : List Insight)
    (hl : List.Pairwise insLE l) :
    InsightsService.sortInsights l = l := by
  unfold InsightsService.sortInsights
  simpa using foldl_insertSorted_sorted l [] List.Pairwise.nil hl (by simp)

/-- C7: the generated insights list equals the fixed rule concatenation —
overdue tasks, overdue projects, unassigned high-priority, due soon,
overloaded members, behind schedule, recently completed, on-track, top
performer, summary — and it is sorted by category priority
(critical, warning, positive, info); hence within each category the
order is exactly the generation order. -/
theorem insights_generation_order (tasks : List Task)
    (projects : List Project) (members : List TeamMember) (today : Int) :
    InsightsService.generate tasks projects members today =
      InsightsService.overdue_tasks tasks today ++
      InsightsService.overdue_projects projects today ++
      InsightsService.unassigned_high_priority tasks ++
      InsightsService.due_soon_tasks tasks today ++
      InsightsService.overloaded_members tasks members ++
      InsightsService.behind_schedule_projects projects today ++
      InsightsService.recently_completed tasks ++
      InsightsService.on_track_projects projects today ++
      InsightsService.top_performer tasks members ++
      InsightsService.summary_stats tasks projects members ∧
    List.Pairwise insLE
      (InsightsService.generate tasks projects members today) := by
  have r10 : List.Pairwise insLE
        (InsightsService.summary_stats tasks projects members) ∧
      ∀ b ∈ InsightsService.summary_stats tasks projects members,
        3 ≤ InsightsService.insPriority b := by
    refine ⟨pairwise_const _ 3 (summary_stats_key tasks projects members),
      fun b hb => le_of_eq (summary_stats_key tasks projects members b hb).symm⟩
  have r9 := pairwise_block_append _ _ 2
    (top_performer_key tasks members) r10.1
    (fun b hb => le_trans (by norm_num) (r10.2 b hb))
  have r8 := pairwise_block_append _ _ 2
    (on_track_projects_key projects today) r9.1 r9.2
  have r7 := pairwise_block_append _ _ 2
    (recently_completed_key tasks) r8.1 r8.2
  have r6 := pairwise_block_append _ _ 1
    (behind_schedule_key projects today) r7.1
    (fun b hb => le_trans (by norm_num) (r7.2 b hb))
  have r5 := pairwise_block_append _ _ 1
    (overloaded_members_key tasks members) r6.1 r6.2
  have r4 := pairwise_block_append _ _ 1
    (due_soon_tasks_key tasks today) r5.1 r5.2
  have r3 := pairwise_block_append _ _ 0
    (unassigned_high_priority_key tasks) r4.1
    (fun b hb => le_trans (by norm_num) (r4.2 b hb))
  have r2 := pairwise_block_append _ _ 0
    (overdue_projects_key projects today) r3.1 r3.2
  have r1 := pairwise_block_append _ _ 0
    (overdue_tasks_key tasks today) r2.1 r2.2
  have hPW : List.Pairwise insLE
      (InsightsService.overdue_tasks tasks today ++
       InsightsService.overdue_projects projects today ++
       InsightsService.unassigned_high_priority tasks ++
       InsightsService.due_soon_tasks tasks today ++
       InsightsService.overloaded_members tasks members ++
       InsightsService.behind_schedule_projects projects today ++
       InsightsService.recently_completed tasks ++
       InsightsService.on_track_projects projects today ++
       InsightsService.top_performer tasks members ++
       InsightsService.summary_stats tasks projects members) := by
    have := r1.1
    simpa [List.append_assoc] using this
  constructor
  · show InsightsService.sortInsights _ = _
    exact sortInsights_of_sorted _ hPW
  · show List.Pairwise insLE (InsightsService.sortInsights _)
    rw [sortInsights_of_sorted _ hPW]
    exact hPW

end ProjectGantt
